import Mathlib

/-!
Verification of the method-binding pass of protoc-gen-grpc-gateway
(`protoc-gen-grpc-gateway/descriptor/services.go`).

The file embeds the Go source shallowly:
* pure data (descriptors, HTTP rules, templates, bindings) become Lean
  structures;
* fallible Go functions returning `(T, error)` become `Except String T`;
* the two external collaborators of `services.go` — the Registry's message
  lookup (`Registry.LookupMsg`, defined in `registry.go`) and the path
  template compiler (`httprule.Parse` followed by `Compile`) — are abstracted
  as function-valued inputs, exactly at their boundary contract: both map a
  string (or a pair of strings) to a result or an error;
* Go's `strings.Split(path, ".")` / `strings.Join(_, ".")` library calls are
  embedded as executable char-level functions `splitDot` / `joinDot`.
-/

namespace Descriptor

/-- The protobuf field-type enumeration
(`descriptor.FieldDescriptorProto_TYPE_*`). -/
inductive FieldType where
  | TYPE_DOUBLE
  | TYPE_FLOAT
  | TYPE_INT64
  | TYPE_UINT64
  | TYPE_INT32
  | TYPE_FIXED64
  | TYPE_FIXED32
  | TYPE_BOOL
  | TYPE_STRING
  | TYPE_GROUP
  | TYPE_MESSAGE
  | TYPE_BYTES
  | TYPE_UINT32
  | TYPE_ENUM
  | TYPE_SFIXED32
  | TYPE_SFIXED64
  | TYPE_SINT32
  | TYPE_SINT64
  deriving DecidableEq, Repr

/-- The name of a field type as printed by the Go `%s` verb on
`FieldDescriptorProto_Type` (its `String()` method). -/
def FieldType.protoName : FieldType → String
  | .TYPE_DOUBLE => "TYPE_DOUBLE"
  | .TYPE_FLOAT => "TYPE_FLOAT"
  | .TYPE_INT64 => "TYPE_INT64"
  | .TYPE_UINT64 => "TYPE_UINT64"
  | .TYPE_INT32 => "TYPE_INT32"
  | .TYPE_FIXED64 => "TYPE_FIXED64"
  | .TYPE_FIXED32 => "TYPE_FIXED32"
  | .TYPE_BOOL => "TYPE_BOOL"
  | .TYPE_STRING => "TYPE_STRING"
  | .TYPE_GROUP => "TYPE_GROUP"
  | .TYPE_MESSAGE => "TYPE_MESSAGE"
  | .TYPE_BYTES => "TYPE_BYTES"
  | .TYPE_UINT32 => "TYPE_UINT32"
  | .TYPE_ENUM => "TYPE_ENUM"
  | .TYPE_SFIXED32 => "TYPE_SFIXED32"
  | .TYPE_SFIXED64 => "TYPE_SFIXED64"
  | .TYPE_SINT32 => "TYPE_SINT32"
  | .TYPE_SINT64 => "TYPE_SINT64"

/-- A message field (`descriptor.Field`): the parts of
`FieldDescriptorProto` that `services.go` reads — `GetName()`, `GetType()`,
`GetTypeName()`. -/
structure Field where
  name : String
  type : FieldType
  typeName : String
  deriving DecidableEq, Repr

/-- A message type (`descriptor.Message`): its simple name (`GetName()`),
its fully qualified name (`FQMN()`, computed by `registry.go` and carried
here as data) and its field list. -/
structure Message where
  name : String
  fqmn : String
  fields : List Field
  deriving DecidableEq, Repr

/-- One step in a field access chain (`descriptor.FieldPathComponent`):
the name as written in the annotation and the resolved field. -/
structure FieldPathComponent where
  name : String
  target : Field
  deriving DecidableEq, Repr

/-- A compiled path template (`httprule.Template`); `services.go` only
reads its `Fields` component, the ordered list of variable field paths. -/
structure Template where
  fields : List String
  deriving DecidableEq, Repr

/-- A Go package reference used in decoder metadata
(`descriptor.GoPackage`). -/
structure GoPackage where
  path : String
  name : String
  deriving DecidableEq, Repr

/-- A body projection (`descriptor.Body`). -/
structure Body where
  decoderFactoryExpr : String
  decoderImports : List GoPackage
  fieldPath : List FieldPathComponent
  deriving DecidableEq, Repr

/-- A path parameter (`descriptor.Parameter`). The Go struct also carries a
back-pointer to its owning `Method`; that cyclic reference is dropped in the
embedding (it is only ever read for names, which `newParam` takes from the
method it is given). -/
structure Parameter where
  fieldPath : List FieldPathComponent
  target : Field
  deriving DecidableEq, Repr

/-- A resolved method binding (`descriptor.Method`). The Go struct embeds
`MethodDescriptorProto` and points back to its `Service`; the embedding
keeps the data `services.go` reads from them: the method name
(`GetName()`), the owning service's name (`Service.GetName()`) and the
client-streaming flag (`GetClientStreaming()`). -/
structure Method where
  serviceName : String
  name : String
  clientStreaming : Bool
  pathTmpl : Template
  httpMethod : String
  requestType : Message
  responseType : Message
  pathParams : List Parameter
  body : Option Body
  deriving DecidableEq, Repr

/-- A declared custom HTTP pattern (`options.CustomHttpPattern`). -/
structure CustomHttpPattern where
  kind : String
  path : String
  deriving DecidableEq, Repr

/-- An HTTP rule annotation (`options.HttpRule`): the five standard verb
pattern fields (empty string = unset), the optional custom pattern
(nil pointer = unset) and the body specification. -/
structure HttpRule where
  get : String
  put : String
  post : String
  delete : String
  patch : String
  custom : Option CustomHttpPattern
  body : String
  deriving DecidableEq, Repr

/-- The payload found under the `google.api.http` extension of a method's
option bag. `proto.GetExtension` may fail, or yield a value that is not an
`HttpRule`; both produce errors in `extractAPIOptions`. -/
inductive HttpExtension where
  | rule (hr : HttpRule)
  | wrongType (typeName : String)
  | getError (msg : String)
  deriving DecidableEq, Repr

/-- A method's option bag (`descriptor.MethodOptions`): at most one
`google.api.http` extension entry. -/
structure MethodOptions where
  httpExt : Option HttpExtension
  deriving DecidableEq, Repr

/-- A raw method descriptor (`descriptor.MethodDescriptorProto`): the data
read by `services.go` — `GetName()`, `GetInputType()`, `GetOutputType()`,
`GetClientStreaming()` and the option bag (nil pointer = absent). -/
structure MethodDescriptorProto where
  name : String
  inputType : String
  outputType : String
  clientStreaming : Bool
  options : Option MethodOptions
  deriving DecidableEq, Repr

/-- A raw service descriptor (`descriptor.ServiceDescriptorProto`):
`GetName()` and `GetMethod()`. -/
structure ServiceDescriptorProto where
  name : String
  methods : List MethodDescriptorProto
  deriving DecidableEq, Repr

/-- A resolved service (`descriptor.Service`): name, defining package
(`File.GetPackage()`, read through the `File` back-pointer in Go) and the
accumulated bound methods. -/
structure Service where
  name : String
  pkg : String
  methods : List Method
  deriving DecidableEq, Repr

/-- A loaded file (`descriptor.File`): its package (`GetPackage()`), its raw
service descriptors (`GetService()`) and its resolved services
(`File.Services`, assigned by `loadServices`). -/
structure ProtoFile where
  pkg : String
  serviceDescs : List ServiceDescriptorProto
  services : List Service
  deriving DecidableEq, Repr

/-- The descriptor registry (`descriptor.Registry`): the table of loaded
files (`r.files`) and the message lookup `LookupMsg(location, name)`.
`LookupMsg` lives in `registry.go`, outside this pass; it is abstracted as
a function honouring its boundary contract (fully-qualified lookup with a
package context, or a not-found error). -/
structure Registry where
  files : List (String × ProtoFile)
  lookupMsg : String → String → Except String Message

/-- Embedding of Go `strings.Split(s, ".")` at the character level:
splits on every occurrence of the dot, keeping empty components. -/
def splitDotChars : List Char → List (List Char)
  | [] => [[]]
  | c :: cs =>
    match splitDotChars cs with
    | [] => [[]]
    | w :: ws => if c = '.' then [] :: w :: ws else (c :: w) :: ws

/-- Embedding of Go `strings.Join(_, ".")` at the character level. -/
def joinDotChars : List (List Char) → List Char
  | [] => []
  | [w] => w
  | w :: ws => w ++ '.' :: joinDotChars ws

/-- Go `strings.Split(s, ".")`. -/
def splitDot (s : String) : List String :=
  (splitDotChars s.data).map String.mk

/-- Go `strings.Join(xs, ".")`. -/
def joinDot (xs : List String) : String :=
  String.mk (joinDotChars (xs.map String.data))

/-- `lookupField` (services.go:215): first field of `msg` named `name`,
or `none`. -/
def lookupField (msg : Message) (name : String) : Option Field :=
  msg.fields.find? (fun f => f.name == name)

/-- The body of the `i > 0` descent step of `resolveFiledPath`
(services.go:233-245): when the accumulated result is nonempty, re-resolve
the previous component's field — descending into message/group types
through the registry, scoped to the current message's FQMN — and fail on
any other type. -/
def descendStep (r : Registry) (path : String) (msg : Message)
    (result : List FieldPathComponent) : Except String Message :=
  match result.getLast? with
  | none => .ok msg
  | some comp =>
    match comp.target.type with
    | .TYPE_MESSAGE => r.lookupMsg msg.fqmn comp.target.typeName
    | .TYPE_GROUP => r.lookupMsg msg.fqmn comp.target.typeName
    | _ => .error ("not an aggregate type: " ++ comp.target.name ++ " in " ++ path)

/-- The loop of `resolveFiledPath` (services.go:232-253), iterating over the
components of the split path with the current message and the accumulated
result; `root` and `path` are the original arguments, used in the
missing-field error. -/
def resolveGo (r : Registry) (root : Message) (path : String) :
    List String → Message → List FieldPathComponent →
    Except String (List FieldPathComponent)
  | [], _, result => .ok result
  | c :: rest, msg, result =>
    match descendStep r path msg result with
    | .error e => .error e
    | .ok msg2 =>
      match lookupField msg2 c with
      | none => .error ("no field \"" ++ path ++ "\" found in " ++ root.name)
      | some f =>
        resolveGo r root path rest msg2 (result ++ [{ name := c, target := f }])

/-- `resolveFiledPath` (services.go:225, sic — the Go identifier is spelled
this way): resolves a dotted path into a field chain starting from `msg`. -/
def resolveFiledPath (r : Registry) (msg : Message) (path : String) :
    Except String (List FieldPathComponent) :=
  if path = "" then .ok []
  else resolveGo r msg path (splitDot path) msg []

/-- `newParam` (services.go:158): resolves a template variable's field path
against the method's request type and wraps it as a `Parameter`, rejecting
aggregate-typed targets. -/
def newParam (r : Registry) (meth : Method) (path : String) :
    Except String Parameter :=
  match resolveFiledPath r meth.requestType path with
  | .error e => .error e
  | .ok fields =>
    match fields.getLast? with
    | none => .error ("invalid field access list for " ++ path)
    | some lastc =>
      match lastc.target.type with
      | .TYPE_MESSAGE =>
        .error ("aggregate type " ++ lastc.target.type.protoName ++
          " in parameter of " ++ meth.serviceName ++ "." ++ meth.name ++
          ": " ++ path)
      | .TYPE_GROUP =>
        .error ("aggregate type " ++ lastc.target.type.protoName ++
          " in parameter of " ++ meth.serviceName ++ "." ++ meth.name ++
          ": " ++ path)
      | _ => .ok { fieldPath := fields, target := lastc.target }

/-- `newBody` (services.go:180): three-way switch on the body
specification. -/
def newBody (r : Registry) (meth : Method) (path : String) :
    Except String (Option Body) :=
  if path = "" then .ok none
  else if path = "*" then
    .ok (some
      { decoderFactoryExpr := "json.NewDecoder"
        decoderImports := [{ path := "encoding/json", name := "json" }]
        fieldPath := [] })
  else
    match resolveFiledPath r meth.requestType path with
    | .error e => .error e
    | .ok fields =>
      .ok (some
        { decoderFactoryExpr := "json.NewDecoder"
          decoderImports := [{ path := "encoding/json", name := "json" }]
          fieldPath := fields })

/-- The verb-selection switch of `newMethod` (services.go:58-92): first
populated pattern field wins, in the order get, put, post, delete, patch,
custom; GET and DELETE reject a nonempty body specification; no pattern at
all is an error. -/
def newMethodPattern (md : MethodDescriptorProto) (opts : HttpRule) :
    Except String (String × String) :=
  if opts.get ≠ "" then
    if opts.body ≠ "" then
      .error ("needs request body even though http method is GET: " ++ md.name)
    else .ok ("GET", opts.get)
  else if opts.put ≠ "" then .ok ("PUT", opts.put)
  else if opts.post ≠ "" then .ok ("POST", opts.post)
  else if opts.delete ≠ "" then
    if opts.body ≠ "" then
      .error ("needs request body even though http method is DELETE: " ++ md.name)
    else .ok ("DELETE", opts.delete)
  else if opts.patch ≠ "" then .ok ("PATCH", opts.patch)
  else
    match opts.custom with
    | some c => .ok (c.kind, c.path)
    | none => .error "none of pattern specified"

/-- The `Method` value allocated at services.go:113-120, before path
parameters and body are attached (Go zero values: empty parameter list,
nil body). -/
def mkMeth (svc : Service) (md : MethodDescriptorProto) (httpMethod : String)
    (tmpl : Template) (reqT respT : Message) : Method :=
  { serviceName := svc.name
    name := md.name
    clientStreaming := md.clientStreaming
    pathTmpl := tmpl
    httpMethod := httpMethod
    requestType := reqT
    responseType := respT
    pathParams := []
    body := none }

/-- The parameter loop of `newMethod` (services.go:122-128): builds one
`Parameter` per template variable, in template order, stopping at the first
error. -/
def mapParams (r : Registry) (meth : Method) :
    List String → Except String (List Parameter)
  | [] => .ok []
  | f :: rest =>
    match newParam r meth f with
    | .error e => .error e
    | .ok p =>
      match mapParams r meth rest with
      | .error e => .error e
      | .ok ps => .ok (p :: ps)

/-- `newMethod` (services.go:53-138). `parse` is the external path-template
collaborator: `httprule.Parse` followed by `Compile`, mapping a template
string to a compiled template or a parse error. -/
def newMethod (r : Registry) (parse : String → Except String Template)
    (svc : Service) (md : MethodDescriptorProto) (opts : HttpRule) :
    Except String Method :=
  match newMethodPattern md opts with
  | .error e => .error e
  | .ok (httpMethod, pathTemplate) =>
    match parse pathTemplate with
    | .error e => .error e
    | .ok tmpl =>
      if md.clientStreaming = true ∧ 0 < tmpl.fields.length then
        .error "cannot use path parameter in client streaming"
      else
        match r.lookupMsg svc.pkg md.inputType with
        | .error e => .error e
        | .ok reqT =>
          match r.lookupMsg svc.pkg md.outputType with
          | .error e => .error e
          | .ok respT =>
            match mapParams r (mkMeth svc md httpMethod tmpl reqT respT) tmpl.fields with
            | .error e => .error e
            | .ok params =>
              match newBody r (mkMeth svc md httpMethod tmpl reqT respT) opts.body with
              | .error e => .error e
              | .ok b =>
                .ok { mkMeth svc md httpMethod tmpl reqT respT with
                        pathParams := params, body := b }

/-- `extractAPIOptions` (services.go:140): absent option bag or absent
`google.api.http` extension is a silent `none`; a failed or ill-typed
extension payload is an error. -/
def extractAPIOptions (md : MethodDescriptorProto) :
    Except String (Option HttpRule) :=
  match md.options with
  | none => .ok none
  | some o =>
    match o.httpExt with
    | none => .ok none
    | some (.rule hr) => .ok (some hr)
    | some (.getError e) => .error e
    | some (.wrongType t) => .error ("extension is " ++ t ++ "; want an HttpRule")

/-- The method loop of `loadServices` (services.go:28-43): extract options,
skip annotation-less methods, bind the rest in order, stopping at the first
error. -/
def bindMethods (r : Registry) (parse : String → Except String Template)
    (svc : Service) :
    List MethodDescriptorProto → List Method → Except String (List Method)
  | [], acc => .ok acc
  | md :: rest, acc =>
    match extractAPIOptions md with
    | .error e => .error e
    | .ok none => bindMethods r parse svc rest acc
    | .ok (some opts) =>
      match newMethod r parse svc md opts with
      | .error e => .error e
      | .ok meth => bindMethods r parse svc rest (acc ++ [meth])

/-- The service loop of `loadServices` (services.go:23-48): bind each
declared service's methods; a service that ends up with zero bound methods
is dropped. -/
def loadSvcsLoop (r : Registry) (parse : String → Except String Template)
    (file : ProtoFile) :
    List ServiceDescriptorProto → List Service → Except String (List Service)
  | [], svcs => .ok svcs
  | sd :: rest, svcs =>
    match bindMethods r parse { name := sd.name, pkg := file.pkg, methods := [] }
        sd.methods [] with
    | .error e => .error e
    | .ok meths =>
      if meths = [] then loadSvcsLoop r parse file rest svcs
      else
        loadSvcsLoop r parse file rest
          (svcs ++ [{ name := sd.name, pkg := file.pkg, methods := meths }])

/-- Go map indexing `r.files[targetFile]`. -/
def lookupFile (r : Registry) (targetFile : String) : Option ProtoFile :=
  (r.files.find? (fun kv => kv.1 == targetFile)).map (fun kv => kv.2)

/-- `loadServices` (services.go:17-51). The Go method mutates the registry
in place and returns an `error`; the embedding returns the post-state
registry together with the optional error. `file.Services` is assigned
only after every service has been processed, so an early error return
leaves the registry untouched. -/
def loadServices (parse : String → Except String Template) (r : Registry)
    (targetFile : String) : Registry × Option String :=
  match lookupFile r targetFile with
  | none => (r, some ("no such file: " ++ targetFile))
  | some file =>
    match loadSvcsLoop r parse file file.serviceDescs [] with
    | .error e => (r, some e)
    | .ok svcs =>
      ({ r with
          files := r.files.map (fun kv =>
            if kv.1 = targetFile then (kv.1, { kv.2 with services := svcs })
            else kv) },
        none)

/-- The pattern-selection rule as worded by the specification: the first
populated pattern field, in the fixed priority order get, put, post,
delete, patch, custom, mapped to its verb (the custom pattern contributes
its kind string). Stated from the spec's words, to be compared against
`newMethodPattern` / `newMethod`. -/
def specSelectPattern (opts : HttpRule) : Option (String × String) :=
  if opts.get ≠ "" then some ("GET", opts.get)
  else if opts.put ≠ "" then some ("PUT", opts.put)
  else if opts.post ≠ "" then some ("POST", opts.post)
  else if opts.delete ≠ "" then some ("DELETE", opts.delete)
  else if opts.patch ≠ "" then some ("PATCH", opts.patch)
  else
    match opts.custom with
    | some c => some (c.kind, c.path)
    | none => none

/-! ### Helper lemmas -/

theorem splitDotChars_ne_nil (cs : List Char) : splitDotChars cs ≠ [] := by
  cases cs with
  | nil => simp [splitDotChars]
  | cons c rest =>
    simp only [splitDotChars]
    split
    · simp
    · split <;> simp

theorem joinDotChars_splitDotChars (cs : List Char) :
    joinDotChars (splitDotChars cs) = cs := by
  induction cs with
  | nil => simp [splitDotChars, joinDotChars]
  | cons c rest ih =>
    cases hs : splitDotChars rest with
    | nil => exact absurd hs (splitDotChars_ne_nil rest)
    | cons w ws =>
      rw [hs] at ih
      have hstep : splitDotChars (c :: rest) =
          if c = '.' then [] :: w :: ws else (c :: w) :: ws := by
        simp only [splitDotChars, hs]
      rw [hstep]
      by_cases hc : c = '.'
      · subst hc
        rw [if_pos rfl]
        simpa [joinDotChars] using ih
      · rw [if_neg hc]
        cases ws with
        | nil =>
          simp only [joinDotChars] at ih ⊢
          rw [ih]
        | cons w2 ws2 =>
          simp only [joinDotChars] at ih ⊢
          rw [List.cons_append, ih]

theorem splitDot_ne_nil (s : String) : splitDot s ≠ [] := by
  unfold splitDot
  simp [splitDotChars_ne_nil]

theorem joinDot_splitDot (s : String) : joinDot (splitDot s) = s := by
  unfold joinDot splitDot
  rw [List.map_map]
  have hcomp : (String.data ∘ String.mk) = id := rfl
  rw [hcomp, List.map_id, joinDotChars_splitDotChars]

/-- Successful resolution appends exactly one component per path component,
keeping the component names in order. -/
theorem resolveGo_ok_names (r : Registry) (root : Message) (path : String)
    (comps : List String) :
    ∀ msg acc res, resolveGo r root path comps msg acc = .ok res →
      res.map FieldPathComponent.name = acc.map FieldPathComponent.name ++ comps := by
  induction comps with
  | nil =>
    intro msg acc res h
    simp only [resolveGo] at h
    cases h
    simp
  | cons c rest ih =>
    intro msg acc res h
    simp only [resolveGo] at h
    split at h
    · cases h
    · split at h
      · cases h
      · have h2 := ih _ _ _ h
        simpa using h2

theorem descendStep_error_shape (r : Registry) (path : String) (msg : Message)
    (result : List FieldPathComponent) (e : String)
    (h : descendStep r path msg result = .error e) :
    (∃ fname, e = "not an aggregate type: " ++ fname ++ " in " ++ path)
    ∨ (∃ ctx tn, r.lookupMsg ctx tn = .error e) := by
  unfold descendStep at h
  split at h
  · cases h
  · split at h
    · exact Or.inr ⟨msg.fqmn, _, h⟩
    · exact Or.inr ⟨msg.fqmn, _, h⟩
    · cases h
      exact Or.inl ⟨_, rfl⟩

theorem resolveGo_error_shape (r : Registry) (root : Message) (path : String)
    (comps : List String) :
    ∀ msg acc e, resolveGo r root path comps msg acc = .error e →
      e = "no field \"" ++ path ++ "\" found in " ++ root.name
      ∨ (∃ fname, e = "not an aggregate type: " ++ fname ++ " in " ++ path)
      ∨ (∃ ctx tn, r.lookupMsg ctx tn = .error e) := by
  induction comps with
  | nil =>
    intro msg acc e h
    simp only [resolveGo] at h
    cases h
  | cons c rest ih =>
    intro msg acc e h
    simp only [resolveGo] at h
    split at h
    · rename_i e2 hd
      cases h
      rcases descendStep_error_shape r path msg acc e hd with h1 | h2
      · exact Or.inr (Or.inl h1)
      · exact Or.inr (Or.inr h2)
    · split at h
      · cases h
        exact Or.inl rfl
      · exact ih _ _ _ h

/-- Inversion of a successful `newMethod`: every stage of the pipeline
succeeded, and the result is the record built at services.go:113-137. -/
theorem newMethod_ok_inversion (r : Registry) (parse : String → Except String Template)
    (svc : Service) (md : MethodDescriptorProto) (opts : HttpRule) (m : Method)
    (h : newMethod r parse svc md opts = .ok m) :
    ∃ v pt tmpl reqT respT params b,
      newMethodPattern md opts = .ok (v, pt) ∧
      parse pt = .ok tmpl ∧
      ¬(md.clientStreaming = true ∧ 0 < tmpl.fields.length) ∧
      r.lookupMsg svc.pkg md.inputType = .ok reqT ∧
      r.lookupMsg svc.pkg md.outputType = .ok respT ∧
      mapParams r (mkMeth svc md v tmpl reqT respT) tmpl.fields = .ok params ∧
      newBody r (mkMeth svc md v tmpl reqT respT) opts.body = .ok b ∧
      m = { mkMeth svc md v tmpl reqT respT with pathParams := params, body := b } := by
  unfold newMethod at h
  split at h
  · cases h
  · rename_i v pt hpat
    split at h
    · cases h
    · rename_i tmpl hparse
      split at h
      · cases h
      · rename_i hstream
        split at h
        · cases h
        · rename_i reqT hreq
          split at h
          · cases h
          · rename_i respT hresp
            split at h
            · cases h
            · rename_i params hparams
              split at h
              · cases h
              · rename_i b hbody
                cases h
                exact ⟨v, pt, tmpl, reqT, respT, params, b, hpat, hparse,
                  hstream, hreq, hresp, hparams, hbody, rfl⟩

/-- A successful verb selection agrees with the specification's
first-match priority rule. -/
theorem newMethodPattern_ok_spec (md : MethodDescriptorProto) (opts : HttpRule)
    (v pt : String) (h : newMethodPattern md opts = .ok (v, pt)) :
    specSelectPattern opts = some (v, pt) := by
  unfold newMethodPattern at h
  unfold specSelectPattern
  split_ifs at h ⊢ <;> try cases h
  · rfl
  · rfl
  · rfl
  · rfl
  · rfl
  · cases hc : opts.custom with
    | none => rw [hc] at h; cases h
    | some c => rw [hc] at h; cases h; rfl

/-- When the specification's rule selects nothing, the switch of
`newMethod` takes its default branch. -/
theorem specSelectPattern_none_pattern (md : MethodDescriptorProto)
    (opts : HttpRule) (h : specSelectPattern opts = none) :
    newMethodPattern md opts = .error "none of pattern specified" := by
  unfold specSelectPattern at h
  unfold newMethodPattern
  split_ifs at h ⊢
  cases hc : opts.custom with
  | none => rfl
  | some c => rw [hc] at h; cases h

/-- Claim C1: `newMethod` selects the HTTP verb and path template from the
first populated pattern field in the priority order get, put, post, delete,
patch, custom (with verbs GET, PUT, POST, DELETE, PATCH and the custom kind
string), and fails with the no-pattern error when none is set. -/
theorem newMethod_pattern_priority (r : Registry)
    (parse : String → Except String Template) (svc : Service)
    (md : MethodDescriptorProto) (opts : HttpRule) :
    (specSelectPattern opts = none →
      newMethod r parse svc md opts = .error "none of pattern specified")
    ∧ (∀ m, newMethod r parse svc md opts = .ok m →
        ∃ v pt, specSelectPattern opts = some (v, pt) ∧
          m.httpMethod = v ∧ parse pt = .ok m.pathTmpl) := by
  constructor
  · intro hnone
    unfold newMethod
    rw [specSelectPattern_none_pattern md opts hnone]
  · intro m h
    obtain ⟨v, pt, tmpl, reqT, respT, params, b, hpat, hparse, _, _, _, _, _, hm⟩ :=
      newMethod_ok_inversion r parse svc md opts m h
    refine ⟨v, pt, newMethodPattern_ok_spec md opts v pt hpat, ?_, ?_⟩
    · rw [hm]
      rfl
    · rw [hm]
      exact hparse

/-- If the verb GET or DELETE was produced by one of the five standard
pattern fields, the body specification must have been empty. -/
theorem newMethodPattern_ok_body (md : MethodDescriptorProto) (opts : HttpRule)
    (v pt : String) (hpat : newMethodPattern md opts = .ok (v, pt))
    (hv : v = "GET" ∨ v = "DELETE")
    (hstd : opts.get ≠ "" ∨ opts.put ≠ "" ∨ opts.post ≠ "" ∨
      opts.delete ≠ "" ∨ opts.patch ≠ "") :
    opts.body = "" := by
  unfold newMethodPattern at hpat
  split_ifs at hpat with hg hb hp hpo hd hb2 hpa
  · exact not_not.mp hb
  · cases hpat
    rcases hv with h1 | h1 <;> exact absurd h1 (by decide)
  · cases hpat
    rcases hv with h1 | h1 <;> exact absurd h1 (by decide)
  · exact not_not.mp hb2
  · cases hpat
    rcases hv with h1 | h1 <;> exact absurd h1 (by decide)
  · rcases hstd with h1 | h1 | h1 | h1 | h1
    · exact absurd (not_not.mp hg) h1
    · exact absurd (not_not.mp hp) h1
    · exact absurd (not_not.mp hpo) h1
    · exact absurd (not_not.mp hd) h1
    · exact absurd (not_not.mp hpa) h1

/-- Claim C2 (amended): a Method bound through one of the five standard
pattern fields with verb GET or DELETE carries no Body. (The unamended
claim, covering the custom pattern as well, is refuted separately on a
concrete input: the custom branch of the switch performs no body check.) -/
theorem newMethod_get_delete_no_body (r : Registry)
    (parse : String → Except String Template) (svc : Service)
    (md : MethodDescriptorProto) (opts : HttpRule) (m : Method)
    (hstd : opts.get ≠ "" ∨ opts.put ≠ "" ∨ opts.post ≠ "" ∨
      opts.delete ≠ "" ∨ opts.patch ≠ "")
    (h : newMethod r parse svc md opts = .ok m)
    (hv : m.httpMethod = "GET" ∨ m.httpMethod = "DELETE") :
    m.body = none := by
  obtain ⟨v, pt, tmpl, reqT, respT, params, b, hpat, hparse, hstream,
    hreq, hresp, hparams, hbody, hm⟩ :=
    newMethod_ok_inversion r parse svc md opts m h
  have hmv : m.httpMethod = v := by rw [hm]; rfl
  have hbe : opts.body = "" :=
    newMethodPattern_ok_body md opts v pt hpat (by rw [← hmv]; exact hv) hstd
  rw [hbe] at hbody
  unfold newBody at hbody
  rw [if_pos rfl] at hbody
  cases hbody
  rw [hm]

/-- Claim C3: with a nonempty body specification, a method whose
annotation selects GET (first pattern field populated) or DELETE (first
populated after get, put, post) fails with the verb-naming error that
identifies the method. -/
theorem newMethod_body_forbidden (r : Registry)
    (parse : String → Except String Template) (svc : Service)
    (md : MethodDescriptorProto) (opts : HttpRule)
    (hbody : opts.body ≠ "") :
    (opts.get ≠ "" →
      newMethod r parse svc md opts =
        .error ("needs request body even though http method is GET: " ++ md.name))
    ∧ (opts.get = "" → opts.put = "" → opts.post = "" → opts.delete ≠ "" →
      newMethod r parse svc md opts =
        .error ("needs request body even though http method is DELETE: " ++ md.name)) := by
  constructor
  · intro hg
    have hp : newMethodPattern md opts =
        .error ("needs request body even though http method is GET: " ++ md.name) := by
      unfold newMethodPattern
      rw [if_pos hg, if_pos hbody]
    unfold newMethod
    rw [hp]
  · intro hg hpu hpo hd
    have hp : newMethodPattern md opts =
        .error ("needs request body even though http method is DELETE: " ++ md.name) := by
      unfold newMethodPattern
      rw [if_neg (by simp [hg]), if_neg (by simp [hpu]), if_neg (by simp [hpo]),
        if_pos hd, if_pos hbody]
    unfold newMethod
    rw [hp]

/-- Claim C4: a client-streaming method whose compiled template has at
least one variable fails with the streaming/parameter-conflict error, and
every successfully bound client-streaming method has zero parameters. -/
theorem newMethod_client_streaming_no_params (r : Registry)
    (parse : String → Except String Template) (svc : Service)
    (md : MethodDescriptorProto) (opts : HttpRule)
    (hs : md.clientStreaming = true) :
    (∀ v pt tmpl, newMethodPattern md opts = .ok (v, pt) →
      parse pt = .ok tmpl → tmpl.fields ≠ [] →
      newMethod r parse svc md opts =
        .error "cannot use path parameter in client streaming")
    ∧ (∀ m, newMethod r parse svc md opts = .ok m → m.pathParams = []) := by
  constructor
  · intro v pt tmpl hpat hparse hne
    simp only [newMethod, hpat, hparse]
    rw [if_pos ⟨hs, List.length_pos.mpr hne⟩]
  · intro m h
    obtain ⟨v, pt, tmpl, reqT, respT, params, b, hpat, hparse, hstream,
      hreq, hresp, hparams, hbody, hm⟩ :=
      newMethod_ok_inversion r parse svc md opts m h
    have hlen : tmpl.fields = [] := by
      by_contra hne
      exact hstream ⟨hs, List.length_pos.mpr hne⟩
    rw [hlen] at hparams
    simp only [mapParams] at hparams
    cases hparams
    rw [hm]

/-- Claim C5: every failure of field-path resolution is either the
missing-field error — which names the entire original dotted path string
and the root message's name — or a not-an-aggregate error naming the
original path, or an error propagated verbatim from a Registry lookup;
and whenever a component's field lookup fails, at any depth and in any
intermediate message, the error produced is exactly the missing-field
error naming the original path and the root message, never the
intermediate one. -/
theorem resolveFiledPath_error_names_root (r : Registry) (root : Message)
    (path : String) :
    (∀ e, resolveFiledPath r root path = .error e →
      e = "no field \"" ++ path ++ "\" found in " ++ root.name
      ∨ (∃ fname, e = "not an aggregate type: " ++ fname ++ " in " ++ path)
      ∨ (∃ ctx tn, r.lookupMsg ctx tn = .error e))
    ∧ (∀ c rest msg acc msg2, descendStep r path msg acc = .ok msg2 →
      lookupField msg2 c = none →
      resolveGo r root path (c :: rest) msg acc =
        .error ("no field \"" ++ path ++ "\" found in " ++ root.name)) := by
  constructor
  · intro e h
    unfold resolveFiledPath at h
    split at h
    · cases h
    · exact resolveGo_error_shape r root path _ _ _ _ h
  · intro c rest msg acc msg2 hd hl
    simp only [resolveGo, hd, hl]

/-- Claim C6: at every component after the first (the accumulated result is
nonempty), when the previous component's field is not of message or group
type resolution fails with the not-an-aggregate error; when it is, the next
message is obtained from the Registry, keyed by the previous field's
declared type name and scoped to the current message's fully qualified
name. -/
theorem resolveGo_descend_step (r : Registry) (root : Message) (path : String)
    (c : String) (rest : List String) (msg : Message)
    (acc : List FieldPathComponent) (comp : FieldPathComponent)
    (hlast : acc.getLast? = some comp) :
    (comp.target.type ≠ .TYPE_MESSAGE → comp.target.type ≠ .TYPE_GROUP →
      resolveGo r root path (c :: rest) msg acc =
        .error ("not an aggregate type: " ++ comp.target.name ++ " in " ++ path))
    ∧ (comp.target.type = .TYPE_MESSAGE ∨ comp.target.type = .TYPE_GROUP →
      resolveGo r root path (c :: rest) msg acc =
        (r.lookupMsg msg.fqmn comp.target.typeName).bind (fun msg2 =>
          match lookupField msg2 c with
          | none =>
            Except.error ("no field \"" ++ path ++ "\" found in " ++ root.name)
          | some f =>
            resolveGo r root path rest msg2 (acc ++ [{ name := c, target := f }]))) := by
  constructor
  · intro h1 h2
    have hd : descendStep r path msg acc =
        .error ("not an aggregate type: " ++ comp.target.name ++ " in " ++ path) := by
      unfold descendStep
      rw [hlast]
      cases ht : comp.target.type <;> simp_all
    simp only [resolveGo, hd]
  · intro hmg
    have hd : descendStep r path msg acc =
        r.lookupMsg msg.fqmn comp.target.typeName := by
      simp only [descendStep, hlast]
      rcases hmg with ht | ht <;> rw [ht]
    simp only [resolveGo, hd]
    cases hlk : r.lookupMsg msg.fqmn comp.target.typeName <;>
      simp [Except.bind]

/-- Claim C7: `newBody` is a three-way function of the body specification:
the empty string yields no Body; the string "*" yields a whole-message Body
with an empty field path; any other string is resolved as a dotted field
path against the request message type, propagating errors and otherwise
yielding a sub-field Body with the resolved, necessarily nonempty, field
path. -/
theorem newBody_three_way (r : Registry) (meth : Method) (path : String) :
    (path = "" → newBody r meth path = .ok none)
    ∧ (path = "*" → newBody r meth path =
        .ok (some
          { decoderFactoryExpr := "json.NewDecoder"
            decoderImports := [{ path := "encoding/json", name := "json" }]
            fieldPath := [] }))
    ∧ (path ≠ "" → path ≠ "*" →
      (∀ e, resolveFiledPath r meth.requestType path = .error e →
        newBody r meth path = .error e)
      ∧ (∀ fields, resolveFiledPath r meth.requestType path = .ok fields →
        newBody r meth path =
          .ok (some
            { decoderFactoryExpr := "json.NewDecoder"
              decoderImports := [{ path := "encoding/json", name := "json" }]
              fieldPath := fields }) ∧ fields ≠ [])) := by
  refine ⟨?_, ?_, ?_⟩
  · intro h
    subst h
    rfl
  · intro h
    subst h
    rfl
  · intro h1 h2
    constructor
    · intro e he
      unfold newBody
      rw [if_neg h1, if_neg h2, he]
    · intro fields hf
      constructor
      · unfold newBody
        rw [if_neg h1, if_neg h2, hf]
      · unfold resolveFiledPath at hf
        rw [if_neg h1] at hf
        have hn := resolveGo_ok_names r meth.requestType path (splitDot path) _ _ _ hf
        simp only [List.map_nil, List.nil_append] at hn
        intro hcon
        rw [hcon] at hn
        simp only [List.map_nil] at hn
        exact splitDot_ne_nil path hn.symm

/-- Inversion of a successful `newParam`: the field path resolved, its
last component exists, and the parameter wraps them. -/
theorem newParam_ok_inversion (r : Registry) (meth : Method) (path : String)
    (p : Parameter) (h : newParam r meth path = .ok p) :
    ∃ fields lastc, resolveFiledPath r meth.requestType path = .ok fields ∧
      fields.getLast? = some lastc ∧ p.fieldPath = fields ∧
      p.target = lastc.target := by
  unfold newParam at h
  split at h
  · cases h
  · rename_i fields hres
    split at h
    · cases h
    · rename_i lastc hlast
      revert h
      cases ht : lastc.target.type <;> intro h <;> cases h <;>
        exact ⟨fields, lastc, hres, hlast, rfl, rfl⟩

/-- Claim C8: a Parameter built by `newParam` never targets a field of
message or group type, and when the terminal resolved field is of message
or group type `newParam` returns the aggregate-type error instead. -/
theorem newParam_no_aggregate_target (r : Registry) (meth : Method)
    (path : String) :
    (∀ p, newParam r meth path = .ok p →
      p.target.type ≠ .TYPE_MESSAGE ∧ p.target.type ≠ .TYPE_GROUP)
    ∧ (∀ fields lastc, resolveFiledPath r meth.requestType path = .ok fields →
      fields.getLast? = some lastc →
      lastc.target.type = .TYPE_MESSAGE ∨ lastc.target.type = .TYPE_GROUP →
      newParam r meth path =
        .error ("aggregate type " ++ lastc.target.type.protoName ++
          " in parameter of " ++ meth.serviceName ++ "." ++ meth.name ++
          ": " ++ path)) := by
  constructor
  · intro p h
    unfold newParam at h
    split at h
    · cases h
    · rename_i fields hres
      split at h
      · cases h
      · rename_i lastc hlast
        revert h
        cases ht : lastc.target.type <;> intro h <;> cases h <;>
          exact ⟨by simp [ht], by simp [ht]⟩
  · intro fields lastc hres hlast hagg
    simp only [newParam, hres, hlast]
    rcases hagg with ht | ht <;> rw [ht]

/-- Claim C9: joining the component names of a successfully built
Parameter's field path with "." reproduces exactly the original dotted
path string of the template variable. -/
theorem newParam_roundtrip (r : Registry) (meth : Method) (path : String)
    (p : Parameter) (h : newParam r meth path = .ok p) :
    joinDot (p.fieldPath.map FieldPathComponent.name) = path := by
  obtain ⟨fields, lastc, hres, hlast, hfp, _⟩ :=
    newParam_ok_inversion r meth path p h
  by_cases hpe : path = ""
  · rw [hpe] at hres
    unfold resolveFiledPath at hres
    rw [if_pos rfl] at hres
    cases hres
    simp at hlast
  · unfold resolveFiledPath at hres
    rw [if_neg hpe] at hres
    have hn := resolveGo_ok_names r meth.requestType path (splitDot path) _ _ _ hres
    simp only [List.map_nil, List.nil_append] at hn
    rw [hfp, hn]
    exact joinDot_splitDot path

/-- Claim C10: `loadServices` is atomic per file: a binding error is
returned with the registry left untouched (the file's resolved services
are assigned only after every service of the file processed
successfully). -/
theorem loadServices_atomic (parse : String → Except String Template)
    (r : Registry) (tf : String) :
    (∀ file e, lookupFile r tf = some file →
      loadSvcsLoop r parse file file.serviceDescs [] = .error e →
      loadServices parse r tf = (r, some e))
    ∧ (∀ e, (loadServices parse r tf).2 = some e →
      (loadServices parse r tf).1 = r) := by
  constructor
  · intro file e hf hl
    simp only [loadServices, hf, hl]
  · intro e h
    rcases hf : lookupFile r tf with _ | file
    · simp only [loadServices, hf]
    · rcases hl : loadSvcsLoop r parse file file.serviceDescs [] with e2 | svcs
      · simp only [loadServices, hf, hl]
      · exfalso
        simp only [loadServices, hf, hl] at h
        cases h

/-! ### Concrete fixtures, counterexample and witnesses -/

/-- A string field with no sub-structure. -/
def fldB : Field := { name := "b", type := .TYPE_STRING, typeName := "" }

/-- A nested message holding the scalar field `b`. -/
def msgInner : Message := { name := "Inner", fqmn := ".pkg.Inner", fields := [fldB] }

/-- A message-typed field referencing `.pkg.Inner`. -/
def fldA : Field := { name := "a", type := .TYPE_MESSAGE, typeName := ".pkg.Inner" }

/-- A scalar string field. -/
def fldS : Field := { name := "s", type := .TYPE_STRING, typeName := "" }

/-- Another message-typed field referencing `.pkg.Inner`. -/
def fldM : Field := { name := "m", type := .TYPE_MESSAGE, typeName := ".pkg.Inner" }

/-- The request message used in the concrete runs. -/
def msgReq : Message := { name := "Req", fqmn := ".pkg.Req", fields := [fldA, fldS, fldM] }

/-- A registry resolving the two concrete message names. -/
def reg0 : Registry :=
  { files := []
    lookupMsg := fun _ name =>
      if name = ".pkg.Req" then .ok msgReq
      else if name = ".pkg.Inner" then .ok msgInner
      else .error ("no message found: " ++ name) }

/-- A template compiler yielding a variable-free template. -/
def parse0 : String → Except String Template := fun _ => .ok { fields := [] }

/-- A template compiler yielding one variable with field path `a.b`. -/
def parse1 : String → Except String Template := fun _ => .ok { fields := ["a.b"] }

/-- A concrete service. -/
def svc0 : Service := { name := "S", pkg := "pkg", methods := [] }

/-- A concrete non-streaming method descriptor. -/
def mdPlain : MethodDescriptorProto :=
  { name := "M", inputType := ".pkg.Req", outputType := ".pkg.Req"
    clientStreaming := false, options := none }

/-- The client-streaming variant of `mdPlain`. -/
def mdStream : MethodDescriptorProto := { mdPlain with clientStreaming := true }

/-- An annotation with no pattern field set. -/
def optsNone : HttpRule :=
  { get := "", put := "", post := "", delete := "", patch := ""
    custom := none, body := "" }

/-- An annotation with only `put` set. -/
def optsPut : HttpRule := { optsNone with put := "/v1/x" }

/-- An annotation with only `get` set. -/
def optsGet : HttpRule := { optsNone with get := "/v1/x" }

/-- An annotation with `get` set and a nonempty body specification. -/
def optsGetBody : HttpRule := { optsNone with get := "/v1/x", body := "name" }

/-- An annotation with `delete` set and a nonempty body specification. -/
def optsDeleteBody : HttpRule := { optsNone with delete := "/v1/x", body := "name" }

/-- An annotation with a custom pattern of kind "GET" and body "*". -/
def optsCustomGetBody : HttpRule :=
  { optsNone with custom := some { kind := "GET", path := "/v1/x" }, body := "*" }

/-- The method produced from `optsPut`. -/
def mPut : Method := mkMeth svc0 mdPlain "PUT" { fields := [] } msgReq msgReq

/-- The method produced from `optsGet`. -/
def mGet : Method := mkMeth svc0 mdPlain "GET" { fields := [] } msgReq msgReq

/-- The streaming method produced from `optsPut` with no template vars. -/
def mPutStream : Method := mkMeth svc0 mdStream "PUT" { fields := [] } msgReq msgReq

/-- The whole-message body projection. -/
def bodyStar : Body :=
  { decoderFactoryExpr := "json.NewDecoder"
    decoderImports := [{ path := "encoding/json", name := "json" }]
    fieldPath := [] }

/-- The method produced from `optsCustomGetBody`. -/
def mCustomGet : Method :=
  { mkMeth svc0 mdPlain "GET" { fields := [] } msgReq msgReq with
      body := some bodyStar }

/-- Claim C2 counterexample: a method bound through the custom pattern with
kind "GET" and body "*" binds successfully with HTTP verb GET and a
non-nil Body — the custom branch of the verb switch performs no body
check, so the claimed invariant does not extend to custom-produced
verbs. -/
theorem newMethod_custom_verb_body_cex :
    newMethod reg0 parse0 svc0 mdPlain optsCustomGetBody = .ok mCustomGet
    ∧ mCustomGet.httpMethod = "GET" ∧ mCustomGet.body ≠ none :=
  ⟨rfl, rfl, by simp [mCustomGet]⟩

/-- Witness for claim C1 at concrete inputs: no pattern set yields the
no-pattern error; with only `put` set the bound method carries verb PUT
and the compiled template of the `put` pattern. -/
theorem newMethod_pattern_priority_w :
    newMethod reg0 parse0 svc0 mdPlain optsNone = .error "none of pattern specified"
    ∧ ∃ v pt, specSelectPattern optsPut = some (v, pt)
        ∧ mPut.httpMethod = v ∧ parse0 pt = .ok mPut.pathTmpl :=
  ⟨(newMethod_pattern_priority reg0 parse0 svc0 mdPlain optsNone).1 rfl,
   (newMethod_pattern_priority reg0 parse0 svc0 mdPlain optsPut).2 mPut rfl⟩

/-- Witness for claim C2 (amended) at a concrete input: a standard `get`
binding carries no Body. -/
theorem newMethod_get_delete_no_body_w :
    newMethod reg0 parse0 svc0 mdPlain optsGet = .ok mGet ∧ mGet.body = none :=
  ⟨rfl, newMethod_get_delete_no_body reg0 parse0 svc0 mdPlain optsGet mGet
    (Or.inl (by decide)) rfl (Or.inl rfl)⟩

/-- Witness for claim C3 at concrete inputs: GET and DELETE patterns with
body "name" fail with the verb-naming errors identifying method M. -/
theorem newMethod_body_forbidden_w :
    newMethod reg0 parse0 svc0 mdPlain optsGetBody =
      .error "needs request body even though http method is GET: M"
    ∧ newMethod reg0 parse0 svc0 mdPlain optsDeleteBody =
      .error "needs request body even though http method is DELETE: M" :=
  ⟨(newMethod_body_forbidden reg0 parse0 svc0 mdPlain optsGetBody
      (by decide)).1 (by decide),
   (newMethod_body_forbidden reg0 parse0 svc0 mdPlain optsDeleteBody
      (by decide)).2 rfl rfl rfl (by decide)⟩

/-- Witness for claim C4 at concrete inputs: a client-streaming method
with a one-variable template fails; one with a variable-free template
binds with zero parameters. -/
theorem newMethod_client_streaming_no_params_w :
    newMethod reg0 parse1 svc0 mdStream optsPut =
      .error "cannot use path parameter in client streaming"
    ∧ mPutStream.pathParams = [] :=
  ⟨(newMethod_client_streaming_no_params reg0 parse1 svc0 mdStream optsPut rfl).1
      "PUT" "/v1/x" { fields := ["a.b"] } rfl rfl (by decide),
   (newMethod_client_streaming_no_params reg0 parse0 svc0 mdStream optsPut rfl).2
      mPutStream rfl⟩

/-- Witness for claim C5 at a concrete input: the request message has no
field `message_id`, and the resolution error names the full path and the
root message's name Req. -/
theorem resolveFiledPath_error_names_root_w :
    "no field \"message_id\" found in Req" =
      "no field \"" ++ "message_id" ++ "\" found in " ++ msgReq.name
    ∨ (∃ fname, "no field \"message_id\" found in Req" =
        "not an aggregate type: " ++ fname ++ " in " ++ "message_id")
    ∨ (∃ ctx tn, reg0.lookupMsg ctx tn =
        .error "no field \"message_id\" found in Req") :=
  (resolveFiledPath_error_names_root reg0 msgReq "message_id").1
    "no field \"message_id\" found in Req" rfl

/-- Witness for claim C6 at a concrete input: at the second component of
`a.b`, resolution descends through the registry lookup keyed by field
`a`'s declared type name, scoped to the current message's FQMN. -/
theorem resolveGo_descend_step_w :
    resolveGo reg0 msgReq "a.b" ["b"] msgReq [{ name := "a", target := fldA }] =
      (reg0.lookupMsg msgReq.fqmn fldA.typeName).bind (fun msg2 =>
        match lookupField msg2 "b" with
        | none =>
          Except.error ("no field \"" ++ "a.b" ++ "\" found in " ++ msgReq.name)
        | some f =>
          resolveGo reg0 msgReq "a.b" [] msg2
            ([{ name := "a", target := fldA }] ++ [{ name := "b", target := f }])) :=
  (resolveGo_descend_step reg0 msgReq "a.b" "b" [] msgReq
    [{ name := "a", target := fldA }] { name := "a", target := fldA } rfl).2
    (Or.inl rfl)

/-- Witness for claim C7 at concrete inputs: empty body specification,
whole-message "*", and the scalar sub-field path `s`. -/
theorem newBody_three_way_w :
    newBody reg0 mGet "" = .ok none
    ∧ newBody reg0 mGet "*" =
        .ok (some
          { decoderFactoryExpr := "json.NewDecoder"
            decoderImports := [{ path := "encoding/json", name := "json" }]
            fieldPath := [] })
    ∧ (newBody reg0 mGet "s" =
        .ok (some
          { decoderFactoryExpr := "json.NewDecoder"
            decoderImports := [{ path := "encoding/json", name := "json" }]
            fieldPath := [{ name := "s", target := fldS }] })
      ∧ [({ name := "s", target := fldS } : FieldPathComponent)] ≠ []) :=
  ⟨(newBody_three_way reg0 mGet "").1 rfl,
   (newBody_three_way reg0 mGet "*").2.1 rfl,
   ((newBody_three_way reg0 mGet "s").2.2 (by decide) (by decide)).2
     [{ name := "s", target := fldS }] rfl⟩

/-- The parameter produced from the scalar path `s`. -/
def paramS : Parameter := { fieldPath := [{ name := "s", target := fldS }], target := fldS }

/-- Witness for claim C8 at concrete inputs: the parameter built from a
scalar path has a non-aggregate target; the message-typed path `m` fails
with the aggregate-type error. -/
theorem newParam_no_aggregate_target_w :
    (paramS.target.type ≠ .TYPE_MESSAGE ∧ paramS.target.type ≠ .TYPE_GROUP)
    ∧ newParam reg0 mGet "m" =
      .error "aggregate type TYPE_MESSAGE in parameter of S.M: m" :=
  ⟨(newParam_no_aggregate_target reg0 mGet "s").1 paramS rfl,
   (newParam_no_aggregate_target reg0 mGet "m").2
     [{ name := "m", target := fldM }] { name := "m", target := fldM }
     rfl rfl (Or.inl rfl)⟩

/-- The parameter produced from the nested path `a.b`. -/
def paramAB : Parameter :=
  { fieldPath := [{ name := "a", target := fldA }, { name := "b", target := fldB }]
    target := fldB }

/-- Witness for claim C9 at a concrete input: the two-component nested
path `a.b` round-trips through the built parameter. -/
theorem newParam_roundtrip_w :
    joinDot (paramAB.fieldPath.map FieldPathComponent.name) = "a.b" :=
  newParam_roundtrip reg0 mGet "a.b" paramAB rfl

/-- A service descriptor whose only method's annotation sets no pattern. -/
def sdBad : ServiceDescriptorProto :=
  { name := "S"
    methods := [{ mdPlain with options := some { httpExt := some (.rule optsNone) } }] }

/-- A file containing the failing service. -/
def fileBad : ProtoFile := { pkg := "pkg", serviceDescs := [sdBad], services := [] }

/-- A registry holding the failing file. -/
def regBad : Registry :=
  { files := [("f.proto", fileBad)], lookupMsg := fun _ _ => .ok msgReq }

/-- Witness for claim C10 at a concrete input: a file whose single
method fails to bind leaves the registry untouched and surfaces the
binding error. -/
theorem loadServices_atomic_w :
    loadServices parse0 regBad "f.proto" = (regBad, some "none of pattern specified")
    ∧ (loadServices parse0 regBad "f.proto").1 = regBad :=
  ⟨(loadServices_atomic parse0 regBad "f.proto").1 fileBad
      "none of pattern specified" rfl rfl,
   (loadServices_atomic parse0 regBad "f.proto").2 "none of pattern specified" rfl⟩

end Descriptor
